import Mathlib

/-!
Verification of the Researcher-Pro job orchestration core.

Shallow embedding of:
- backend/app/api/v1/analysis.py  (job store, create/list/get/update/delete,
  and the background run process_analysis)
- backend/app/services/research_service.py  (ResearchService.process_analysis,
  the single-phase pipeline with the provider fallback)
- backend/app/api/v1/websockets.py  (ConnectionManager with pruning broadcast,
  and the websocket endpoint receive-and-rebroadcast loop)
- backend/app/core/websocket.py  (ConnectionManager whose broadcast closes but
  does not remove failed sinks; this is the manager imported by main.py)

Conventions: Python dicts become association lists with first-match lookup and
in-place override on insert; datetime.utcnow() becomes a natural-number clock
passed in by the caller; a provider call becomes an Except value, error holding
the message of the raised exception; raising out of a function becomes an
Except.error result.
-/

namespace ResearcherPro

/-- JSON-like values stored in the parameters bag and sent over sinks. -/
inductive Val where
  | str (s : String)
  | num (q : ℚ)
  | boolean (b : Bool)
  | arr (l : List Val)
  | obj (l : List (String × Val))
deriving Repr

mutual
/-- Decidable equality for Val, by simultaneous recursion over the nesting. -/
def Val.beq : Val → Val → Bool
  | .str a, .str b => a == b
  | .num a, .num b => a == b
  | .boolean a, .boolean b => a == b
  | .arr a, .arr b => Val.beqList a b
  | .obj a, .obj b => Val.beqObj a b
  | _, _ => false

/-- Elementwise Val.beq on arrays. -/
def Val.beqList : List Val → List Val → Bool
  | [], [] => true
  | a :: as, b :: bs => Val.beq a b && Val.beqList as bs
  | _, _ => false

/-- Elementwise Val.beq on objects. -/
def Val.beqObj : List (String × Val) → List (String × Val) → Bool
  | [], [] => true
  | (ka, va) :: as, (kb, vb) :: bs => ka == kb && Val.beq va vb && Val.beqObj as bs
  | _, _ => false
end

mutual
theorem Val.beq_refl : (a : Val) → Val.beq a a = true
  | .str s => by simp [Val.beq]
  | .num q => by simp [Val.beq]
  | .boolean b => by simp [Val.beq]
  | .arr l => by simp [Val.beq, Val.beqList_refl l]
  | .obj l => by simp [Val.beq, Val.beqObj_refl l]

theorem Val.beqList_refl : (l : List Val) → Val.beqList l l = true
  | [] => rfl
  | a :: as => by simp [Val.beqList, Val.beq_refl a, Val.beqList_refl as]

theorem Val.beqObj_refl : (l : List (String × Val)) → Val.beqObj l l = true
  | [] => rfl
  | (k, v) :: as => by simp [Val.beqObj, Val.beq_refl v, Val.beqObj_refl as]
end

mutual
theorem Val.eq_of_beq : {a b : Val} → Val.beq a b = true → a = b
  | .str _, .str _, h => by
      simp only [Val.beq, beq_iff_eq] at h; rw [h]
  | .str _, .num _, h => by simp [Val.beq] at h
  | .str _, .boolean _, h => by simp [Val.beq] at h
  | .str _, .arr _, h => by simp [Val.beq] at h
  | .str _, .obj _, h => by simp [Val.beq] at h
  | .num _, .str _, h => by simp [Val.beq] at h
  | .num _, .num _, h => by
      simp only [Val.beq, beq_iff_eq] at h; rw [h]
  | .num _, .boolean _, h => by simp [Val.beq] at h
  | .num _, .arr _, h => by simp [Val.beq] at h
  | .num _, .obj _, h => by simp [Val.beq] at h
  | .boolean _, .str _, h => by simp [Val.beq] at h
  | .boolean _, .num _, h => by simp [Val.beq] at h
  | .boolean _, .boolean _, h => by
      simp only [Val.beq, beq_iff_eq] at h; rw [h]
  | .boolean _, .arr _, h => by simp [Val.beq] at h
  | .boolean _, .obj _, h => by simp [Val.beq] at h
  | .arr _, .str _, h => by simp [Val.beq] at h
  | .arr _, .num _, h => by simp [Val.beq] at h
  | .arr _, .boolean _, h => by simp [Val.beq] at h
  | .arr la, .arr lb, h => by
      simp only [Val.beq] at h
      rw [Val.eqList_of_beq h]
  | .arr _, .obj _, h => by simp [Val.beq] at h
  | .obj _, .str _, h => by simp [Val.beq] at h
  | .obj _, .num _, h => by simp [Val.beq] at h
  | .obj _, .boolean _, h => by simp [Val.beq] at h
  | .obj _, .arr _, h => by simp [Val.beq] at h
  | .obj la, .obj lb, h => by
      simp only [Val.beq] at h
      rw [Val.eqObj_of_beq h]

theorem Val.eqList_of_beq : {a b : List Val} → Val.beqList a b = true → a = b
  | [], [], _ => rfl
  | [], _ :: _, h => by simp [Val.beqList] at h
  | _ :: _, [], h => by simp [Val.beqList] at h
  | a :: as, b :: bs, h => by
      simp only [Val.beqList, Bool.and_eq_true] at h
      rw [Val.eq_of_beq h.1, Val.eqList_of_beq h.2]

theorem Val.eqObj_of_beq :
    {a b : List (String × Val)} → Val.beqObj a b = true → a = b
  | [], [], _ => rfl
  | [], _ :: _, h => by simp [Val.beqObj] at h
  | _ :: _, [], h => by simp [Val.beqObj] at h
  | (ka, va) :: as, (kb, vb) :: bs, h => by
      simp only [Val.beqObj, Bool.and_eq_true, beq_iff_eq] at h
      rw [h.1.1, Val.eq_of_beq h.1.2, Val.eqObj_of_beq h.2]
end

instance : DecidableEq Val := fun a b =>
  if h : Val.beq a b = true then
    .isTrue (Val.eq_of_beq h)
  else
    .isFalse (fun he => h (he ▸ Val.beq_refl a))

/-- Association-list lookup, first match wins (Python dict access). -/
def alookup {α β : Type} [DecidableEq α] : List (α × β) → α → Option β
  | [], _ => none
  | (k, v) :: rest, key => if k = key then some v else alookup rest key

/-- Python dict write d[k] = v (also the merge step of a dict literal with
spread): override in place when the key exists, append otherwise. -/
def ainsert {α β : Type} [DecidableEq α] :
    List (α × β) → α → β → List (α × β)
  | [], key, v => [(key, v)]
  | (k, w) :: rest, key, v =>
      if k = key then (key, v) :: rest else (k, w) :: ainsert rest key v

/-- Python del d[k]: removes the entry for the key. -/
def aerase {α β : Type} [DecidableEq α] : List (α × β) → α → List (α × β)
  | [], _ => []
  | (k, w) :: rest, key => if k = key then rest else (k, w) :: aerase rest key

theorem alookup_ainsert {α β : Type} [DecidableEq α]
    (l : List (α × β)) (k k' : α) (v : β) :
    alookup (ainsert l k v) k' = if k = k' then some v else alookup l k' := by
  induction l with
  | nil => simp [ainsert, alookup]
  | cons hd tl ih =>
      obtain ⟨k0, v0⟩ := hd
      simp only [ainsert]
      by_cases h0 : k0 = k
      · subst h0
        simp only [if_pos rfl, alookup]
        by_cases h : k0 = k' <;> simp [h]
      · simp only [if_neg h0, alookup]
        by_cases h1 : k0 = k'
        · subst h1
          have hk : ¬ k = k0 := fun he => h0 he.symm
          simp [hk]
        · simp [h1, ih]

theorem alookup_ainsert_self {α β : Type} [DecidableEq α]
    (l : List (α × β)) (k : α) (v : β) :
    alookup (ainsert l k v) k = some v := by
  rw [alookup_ainsert]
  simp

/-- The parameters bag of a job: a string-keyed dict of JSON-like values. -/
abbrev Params := List (String × Val)

/-- Python `analysis.parameters or {}`: None (and the empty dict) collapse to
the empty dict. -/
def paramsOrEmpty : Option Params → Params
  | none => []
  | some p => p

/-- The Analysis record of backend/app/schemas/analysis.py (class Analysis).
Timestamps are modelled as natural-number clock ticks. -/
structure Analysis where
  id : Nat
  title : String
  description : String
  research_topic : String
  parameters : Option Params
  status : String
  progress : ℚ
  created_at : Nat
  updated_at : Nat
  user_id : Nat
deriving DecidableEq, Repr

/-- The request body of the create endpoint (class AnalysisCreate). -/
structure AnalysisCreate where
  title : String
  description : String
  research_topic : String
  parameters : Option Params
deriving DecidableEq, Repr

/-- The module-level `analyses` dict of backend/app/api/v1/analysis.py. -/
abbrev JobMap := List (Nat × Analysis)

/-- Observable store and hub effects performed by the endpoints and the run:
a dict write `analyses[id] = a`, a `save_analyses()` call, and a status
broadcast to the notification hub (the websocket manager). -/
inductive Action where
  | write (analysis_id : Nat) (a : Analysis)
  | save
  | broadcast (analysis_id : String) (message : Val)
deriving DecidableEq, Repr

/-- The `except Exception` handler of process_analysis (analysis.py:106-114):
status becomes failed, the error message is merged into parameters, the record
is written back and saved. progress and updated_at are not touched. -/
def fail_update (analyses : JobMap) (analysis_id : Nat) (a : Analysis)
    (e : String) : JobMap × List Action :=
  let afail := { a with
    status := "failed",
    parameters := some (ainsert (paramsOrEmpty a.parameters) "error" (.str e)) }
  (ainsert analyses analysis_id afail, [.write analysis_id afail, .save])

/-- The remainder of process_analysis after the researching write and save
(analysis.py:70-114), as a function of the shared dict at that point and of
the local `analysis` variable `a1`. `rr` is the outcome of
ai_service.get_initial_research (the research provider call), `ar` the outcome
of ai_service.analyze_data (the analysis provider call); an `Except.error`
carries the message of the raised exception. `now` is the clock value read by
datetime.utcnow() at the completion write. -/
def process_analysis_rest (analyses : JobMap) (analysis_id : Nat)
    (a1 : Analysis) (rr : Except String String) (ar : Except String Val)
    (now : Nat) : JobMap × List Action :=
  match rr with
  | .error e => fail_update analyses analysis_id a1 e
  | .ok research_data =>
    let a2 := { a1 with status := "analyzing", progress := 1/2 }
    let m2 := ainsert analyses analysis_id a2
    match ar with
    | .error e =>
        let step := fail_update m2 analysis_id a2 e
        (step.1, [.write analysis_id a2, .save] ++ step.2)
    | .ok analysis_results =>
        let a3 := { a2 with
          parameters := some (ainsert (ainsert (paramsOrEmpty a2.parameters)
            "research_data" (.str research_data))
            "analysis_results" analysis_results),
          status := "completed", progress := 1, updated_at := now }
        (ainsert m2 analysis_id a3,
         [.write analysis_id a2, .save, .write analysis_id a3, .save])

/-- The background run process_analysis (analysis.py:57-114). The initial
lookup `analyses[analysis_id]` (line 60) sits outside the try block, so an
absent id raises a KeyError out of the task, modelled as Except.error; every
exception raised inside the try block is captured by fail_update. -/
def process_analysis (analyses : JobMap) (analysis_id : Nat)
    (rr : Except String String) (ar : Except String Val) (now : Nat) :
    Except String (JobMap × List Action) :=
  match alookup analyses analysis_id with
  | none => .error "KeyError"
  | some analysis =>
    let a1 := { analysis with status := "researching", progress := 1/4 }
    let m1 := ainsert analyses analysis_id a1
    let step := process_analysis_rest m1 analysis_id a1 rr ar now
    .ok (step.1, [.write analysis_id a1, .save] ++ step.2)

/-- Module-level server state of analysis.py: the analyses dict and the
monotone id counter. -/
structure ApiState where
  analyses : JobMap
  current_id : Nat
deriving DecidableEq, Repr

/-- The create endpoint (analysis.py:124-154): build the record with
status pending and progress 0.0, insert it under current_id, bump the
counter, and schedule process_analysis for that id. It performs no in-flight
check and can raise no conflict. -/
def create_analysis (st : ApiState) (c : AnalysisCreate) (now : Nat) :
    ApiState × Analysis :=
  let db_analysis : Analysis := {
    id := st.current_id, title := c.title, description := c.description,
    research_topic := c.research_topic, parameters := c.parameters,
    status := "pending", progress := 0, created_at := now, updated_at := now,
    user_id := 1 }
  ({ analyses := ainsert st.analyses st.current_id db_analysis,
     current_id := st.current_id + 1 }, db_analysis)

/-- The delete endpoint (analysis.py:192-203): 404 when the id is absent,
otherwise removes the entry from the dict. It does not touch the background
task. -/
def delete_analysis (st : ApiState) (analysis_id : Nat) :
    Except String ApiState :=
  if (alookup st.analyses analysis_id).isSome then
    .ok { st with analyses := aerase st.analyses analysis_id }
  else
    .error "404: Analysis not found"

/-- The list endpoint (analysis.py:116-122): list(analyses.values()) sliced
with [skip : skip + limit]. -/
def list_analyses (st : ApiState) (skip limit : Nat) : List Analysis :=
  ((st.analyses.map Prod.snd).drop skip).take limit

/-- Records written to the dict, in order, by a list of actions. -/
def writesOf : List Action → List Analysis
  | [] => []
  | .write _ a :: rest => a :: writesOf rest
  | .save :: rest => writesOf rest
  | .broadcast _ _ :: rest => writesOf rest

/-- Status events broadcast to the hub by a list of actions. -/
def broadcastsOf : List Action → List Action
  | [] => []
  | .broadcast aid m :: rest => .broadcast aid m :: broadcastsOf rest
  | .write _ _ :: rest => broadcastsOf rest
  | .save :: rest => broadcastsOf rest

/-- The action list is an alternation of dict writes each immediately followed
by a save_analyses persist. -/
def writesThenSaves : List Action → Bool
  | [] => true
  | .write _ _ :: .save :: rest => writesThenSaves rest
  | _ => false

/-- Final record stored under an id after a run result. -/
def final_record (r : Except String (JobMap × List Action))
    (analysis_id : Nat) : Option Analysis :=
  match r with
  | .error _ => none
  | .ok (m, _) => alookup m analysis_id

/-- Action trace of a run result (empty when the run threw before the try). -/
def run_trace (r : Except String (JobMap × List Action)) : List Action :=
  match r with
  | .error _ => []
  | .ok (_, acts) => acts

/-- A concrete pending record, as created by create_analysis at tick 5. -/
def sample_pending : Analysis :=
  { id := 1, title := "t", description := "d",
    research_topic := "EV battery market",
    parameters := some [("foo", .str "bar")],
    status := "pending", progress := 0, created_at := 5, updated_at := 5,
    user_id := 1 }

example :
    (final_record (process_analysis [(1, sample_pending)] 1
        (.ok "rd") (.ok (.str "res")) 9) 1).map Analysis.status =
      some "completed" := by decide

example :
    (final_record (process_analysis [(1, sample_pending)] 1
        (.error "boom") (.ok (.str "res")) 9) 1).map Analysis.status =
      some "failed" := by decide

/-- A websocket registered with a ConnectionManager. cid identifies the socket
object (equality of Conn models Python object identity in the connection
lists); alive tells whether a send_json to it succeeds or raises. -/
structure Conn where
  cid : Nat
  alive : Bool
deriving DecidableEq, Repr

/-- The active_connections dict of a ConnectionManager: analysis id to the
list of registered sockets. -/
abbrev ManagerState := List (String × List Conn)

/-- Python list.remove: removes the first occurrence (callers guard absence). -/
def listRemove : List Conn → Conn → List Conn
  | [], _ => []
  | c :: rest, x => if c = x then rest else c :: listRemove rest x

/-- ConnectionManager.disconnect of backend/app/api/v1/websockets.py:35-43:
remove the socket from the entry of the id and delete the entry when it
becomes empty; any exception (the ValueError of removing an absent socket) is
swallowed, leaving the state unchanged. -/
def disconnect (m : ManagerState) (analysis_id : String) (ws : Conn) :
    ManagerState :=
  match alookup m analysis_id with
  | none => m
  | some conns =>
      if ws ∈ conns then
        let conns' := listRemove conns ws
        if conns'.isEmpty then aerase m analysis_id
        else ainsert m analysis_id conns'
      else m

/-- ConnectionManager.broadcast_to_analysis of
backend/app/api/v1/websockets.py:45-56: attempt send_json on every socket
registered for the id in order; sends that raise are collected and those
sockets are then disconnected. Returns the new state and the deliveries made
(socket id paired with the message). The call never raises. -/
def broadcast_to_analysis (m : ManagerState) (analysis_id : String)
    (message : Val) : ManagerState × List (Nat × Val) :=
  match alookup m analysis_id with
  | none => (m, [])
  | some conns =>
      let delivered := (conns.filter (fun c => c.alive)).map
        (fun c => (c.cid, message))
      let disconnected := conns.filter (fun c => !c.alive)
      (disconnected.foldl (fun acc c => disconnect acc analysis_id c) m,
       delivered)

/-- ConnectionManager.broadcast_to_analysis of
backend/app/core/websocket.py:25-31 (the manager instance main.py imports):
attempt send_json on every socket for the id; a socket whose send raises is
closed but stays registered. Returns the unchanged state, the deliveries, and
the ids of the sockets it closed. -/
def core_broadcast_to_analysis (m : ManagerState) (analysis_id : String)
    (message : Val) : ManagerState × List (Nat × Val) × List Nat :=
  match alookup m analysis_id with
  | none => (m, [], [])
  | some conns =>
      (m,
       (conns.filter (fun c => c.alive)).map (fun c => (c.cid, message)),
       (conns.filter (fun c => !c.alive)).map (fun c => c.cid))

/-- One iteration of the websocket endpoint receive loop of
backend/app/api/v1/websockets.py:87-100: a text frame that parses as JSON is
passed verbatim to manager.broadcast_to_analysis for the id of the channel
the sender is subscribed to. -/
def websocket_endpoint_receive (m : ManagerState) (analysis_id : String)
    (message : Val) : ManagerState × List (Nat × Val) :=
  broadcast_to_analysis m analysis_id message

/-- The SQLAlchemy-backed Analysis record as used by ResearchService. -/
structure SAnalysis where
  id : Nat
  user_id : Nat
  query : String
  status : String
  results : Option Val
  error : Option String
  completed_at : Option Nat
deriving DecidableEq, Repr

/-- A notify_analysis_update call made by ResearchService. -/
inductive RSEvent where
  | notify (user_id : Nat) (analysis_id : Nat) (status : String)
      (payload : Option Val)
deriving DecidableEq, Repr

/-- Result of one ResearchService.process_analysis call: the final committed
record (none when the 404 fired before any commit), the notify events in
order, and the exception propagated to the caller, if any. -/
structure RSOutcome where
  record : Option SAnalysis
  events : List RSEvent
  raised : Option String
deriving DecidableEq, Repr

/-- ResearchService.process_analysis (research_service.py:58-109), the
single-phase pipeline holding the provider fallback (lines 70-75): the
primary provider (analyze_with_perplexity) is tried first and on any
exception the secondary (analyze_with_openai) is tried once; an exception
from the secondary is caught by the outer handler, which commits the failed
record and re-raises an HTTPException to the caller. -/
def research_service_process_analysis (a : Option SAnalysis)
    (primary secondary : Except String Val) (now : Nat) : RSOutcome :=
  match a with
  | none =>
      { record := none, events := [],
        raised := some "404: Analysis not found" }
  | some a0 =>
    let a1 := { a0 with status := "processing" }
    let ev1 := RSEvent.notify a1.user_id a1.id "processing" none
    match (match primary with | .ok r => Except.ok r | .error _ => secondary) with
    | .ok results =>
        let a2 := { a1 with
          results := some results,
          status := "completed",
          completed_at := some now }
        { record := some a2,
          events := [ev1, .notify a2.user_id a2.id "completed"
            (some (.obj [("results", results)]))],
          raised := none }
    | .error e =>
        let a2 := { a1 with status := "failed", error := some e }
        { record := some a2,
          events := [ev1, .notify a2.user_id a2.id "failed"
            (some (.obj [("error", .str e)]))],
          raised := some ("500: Analysis failed: " ++ e) }

/-- True when the run returned instead of raising. -/
def run_ok (r : Except String (JobMap × List Action)) : Bool :=
  match r with
  | .ok _ => true
  | .error _ => false

/-- A record mid-run, as left by the first transition of a run in flight. -/
def sample_inflight : Analysis :=
  { sample_pending with status := "researching", progress := 1/4 }

/-- C1, counterexample: in the two-phase orchestrator the research phase has
no fallback. With the store holding job 1, the primary research call failing
with message boom, and the other provider able to succeed, the run still ends
failed with the error key written: it never transitions to analyzing, because
process_analysis consults no secondary provider for the research phase. -/
theorem C1_counterexample :
    (final_record (process_analysis [(1, sample_pending)] 1 (.error "boom")
        (.ok (.str "res")) 9) 1).map
      (fun a => (a.status, alookup (paramsOrEmpty a.parameters) "error")) =
      some ("failed", some (.str "boom")) := by decide

/-- C1, amended: the two-phase orchestrator attempts no fallback — a research
provider failure is terminal, with the message captured in parameters.error.
The one-shot primary-to-secondary fallback lives only in
ResearchService.process_analysis, a single-phase pipeline: there a primary
failure followed by a secondary success completes the run with the secondary
results and no error field, and failure of both providers marks the run
failed carrying the secondary error message. -/
theorem C1_amended (analyses : JobMap) (analysis_id : Nat) (a : Analysis)
    (ha : alookup analyses analysis_id = some a)
    (e : String) (ar : Except String Val) (now : Nat)
    (a0 : SAnalysis) (ep es : String) (r : Val) :
    ((final_record (process_analysis analyses analysis_id (.error e) ar now)
        analysis_id).map
      (fun a' => (a'.status, alookup (paramsOrEmpty a'.parameters) "error")) =
      some ("failed", some (.str e))) ∧
    ((research_service_process_analysis (some a0) (.error ep) (.ok r)
        now).record.map (fun s => (s.status, s.results, s.error)) =
      some ("completed", some r, a0.error)) ∧
    ((research_service_process_analysis (some a0) (.error ep) (.error es)
        now).record.map (fun s => (s.status, s.error)) =
      some ("failed", some es)) := by
  refine ⟨?_, ?_, ?_⟩
  · simp [process_analysis, ha, process_analysis_rest, fail_update,
      final_record, paramsOrEmpty, alookup_ainsert_self]
  · simp [research_service_process_analysis]
  · simp [research_service_process_analysis]

/-- C1, witness for the amended theorem at concrete inputs. -/
theorem C1_amended_witness :
    ((final_record (process_analysis [(1, sample_pending)] 1 (.error "boom")
        (.ok (.str "res")) 9) 1).map
      (fun a' => (a'.status, alookup (paramsOrEmpty a'.parameters) "error")) =
      some ("failed", some (.str "boom"))) ∧
    ((research_service_process_analysis
        (some { id := 1, user_id := 1, query := "q", status := "pending",
                results := none, error := none, completed_at := none })
        (.error "p down") (.ok (.str "ok")) 9).record.map
      (fun s => (s.status, s.results, s.error)) =
      some ("completed", some (.str "ok"), none)) ∧
    ((research_service_process_analysis
        (some { id := 1, user_id := 1, query := "q", status := "pending",
                results := none, error := none, completed_at := none })
        (.error "p down") (.error "s down") 9).record.map
      (fun s => (s.status, s.error)) = some ("failed", some "s down")) :=
  C1_amended [(1, sample_pending)] 1 sample_pending (by decide) "boom"
    (.ok (.str "res")) 9
    { id := 1, user_id := 1, query := "q", status := "pending",
      results := none, error := none, completed_at := none }
    "p down" "s down" (.str "ok")

/-- C2, counterexample: a fully successful run performs three transitions
(three dict writes) yet emits zero status events to the notification hub —
process_analysis never calls the websocket manager, so no transition is
followed by a broadcast. -/
theorem C2_counterexample :
    (writesOf (run_trace (process_analysis [(1, sample_pending)] 1 (.ok "rd")
        (.ok (.str "res")) 9))).length = 3 ∧
    broadcastsOf (run_trace (process_analysis [(1, sample_pending)] 1
        (.ok "rd") (.ok (.str "res")) 9)) = [] := by decide

/-- C2, amended: each transition of a run mutates the Job Record in memory
and then persists the whole store via save_analyses, in that order, before
the next phase starts — the action trace of every run is an alternation of
write-then-save pairs — but no status event is ever emitted to the
Notification Hub by the orchestrator. -/
theorem C2_amended (analyses : JobMap) (analysis_id : Nat) (a : Analysis)
    (ha : alookup analyses analysis_id = some a)
    (rr : Except String String) (ar : Except String Val) (now : Nat) :
    writesThenSaves (run_trace (process_analysis analyses analysis_id rr ar
        now)) = true ∧
    broadcastsOf (run_trace (process_analysis analyses analysis_id rr ar
        now)) = [] := by
  cases rr with
  | error e =>
      simp [process_analysis, ha, process_analysis_rest, fail_update,
        run_trace, writesThenSaves, broadcastsOf]
  | ok rd =>
      cases ar with
      | error e =>
          simp [process_analysis, ha, process_analysis_rest, fail_update,
            run_trace, writesThenSaves, broadcastsOf]
      | ok res =>
          simp [process_analysis, ha, process_analysis_rest, fail_update,
            run_trace, writesThenSaves, broadcastsOf]

/-- C2, witness for the amended theorem at a concrete input. -/
theorem C2_amended_witness :
    writesThenSaves (run_trace (process_analysis [(1, sample_pending)] 1
        (.ok "rd") (.ok (.str "res")) 9)) = true ∧
    broadcastsOf (run_trace (process_analysis [(1, sample_pending)] 1
        (.ok "rd") (.ok (.str "res")) 9)) = [] :=
  C2_amended [(1, sample_pending)] 1 sample_pending (by decide)
    (.ok "rd") (.ok (.str "res")) 9

/-- C4, counterexample: the initial lookup of the run sits outside the try
block, so a run started for an id absent from the store raises a KeyError
out of the task instead of capturing it. -/
theorem C4_counterexample :
    process_analysis [] 1 (.ok "rd") (.ok (.str "res")) 9 =
      .error "KeyError" := rfl

/-- C4, amended: when the job id is present in the store at run start, the
run task propagates no exception, and every provider failure is captured into
the record as status failed with the message under the error key of
parameters; when the id is absent at run start, the lookup raises an
unhandled KeyError out of the run task. -/
theorem C4_amended (analyses : JobMap) (analysis_id : Nat) (a : Analysis)
    (ha : alookup analyses analysis_id = some a)
    (rr : Except String String) (ar : Except String Val) (now : Nat) :
    run_ok (process_analysis analyses analysis_id rr ar now) = true ∧
    (∀ e, rr = .error e →
      (final_record (process_analysis analyses analysis_id rr ar now)
          analysis_id).map
        (fun a' => (a'.status, alookup (paramsOrEmpty a'.parameters)
          "error")) = some ("failed", some (.str e))) ∧
    (∀ rd e, rr = .ok rd → ar = .error e →
      (final_record (process_analysis analyses analysis_id rr ar now)
          analysis_id).map
        (fun a' => (a'.status, alookup (paramsOrEmpty a'.parameters)
          "error")) = some ("failed", some (.str e))) := by
  refine ⟨?_, ?_, ?_⟩
  · cases rr with
    | error e => simp [process_analysis, ha, run_ok]
    | ok rd =>
        cases ar with
        | error e => simp [process_analysis, ha, run_ok]
        | ok res => simp [process_analysis, ha, run_ok]
  · rintro e rfl
    simp [process_analysis, ha, process_analysis_rest, fail_update,
      final_record, paramsOrEmpty, alookup_ainsert_self]
  · rintro rd e rfl rfl
    simp [process_analysis, ha, process_analysis_rest, fail_update,
      final_record, paramsOrEmpty, alookup_ainsert_self]

/-- C4, witness for the amended theorem at a concrete input. -/
theorem C4_amended_witness :
    run_ok (process_analysis [(1, sample_pending)] 1 (.error "boom")
        (.ok (.str "res")) 9) = true ∧
    (∀ e, (Except.error "boom" : Except String String) = .error e →
      (final_record (process_analysis [(1, sample_pending)] 1 (.error "boom")
          (.ok (.str "res")) 9) 1).map
        (fun a' => (a'.status, alookup (paramsOrEmpty a'.parameters)
          "error")) = some ("failed", some (.str e))) ∧
    (∀ rd e, (Except.error "boom" : Except String String) = .ok rd →
      (Except.ok (Val.str "res") : Except String Val) = .error e →
      (final_record (process_analysis [(1, sample_pending)] 1 (.error "boom")
          (.ok (.str "res")) 9) 1).map
        (fun a' => (a'.status, alookup (paramsOrEmpty a'.parameters)
          "error")) = some ("failed", some (.str e))) :=
  C4_amended [(1, sample_pending)] 1 sample_pending (by decide)
    (.error "boom") (.ok (.str "res")) 9

/-- C5: over a job lifetime driven by the orchestrator — creation writes the
record with progress 0.0, and the run then performs its writes — the sequence
of progress values written is non-decreasing and each value is one of 0.0,
0.25, 0.5, 1.0; a run ending in failure leaves progress at the last
successful value (0.25 for a research-phase failure, 0.5 for an
analysis-phase failure). -/
theorem C5_progress_monotone (st : ApiState) (c : AnalysisCreate)
    (rr : Except String String) (ar : Except String Val) (now later : Nat) :
    List.Chain' (· ≤ ·)
      ((create_analysis st c now).2.progress ::
        (writesOf (run_trace (process_analysis
          (create_analysis st c now).1.analyses
          (create_analysis st c now).2.id rr ar later))).map
            Analysis.progress) ∧
    (∀ v ∈ (create_analysis st c now).2.progress ::
        (writesOf (run_trace (process_analysis
          (create_analysis st c now).1.analyses
          (create_analysis st c now).2.id rr ar later))).map
            Analysis.progress,
      v = 0 ∨ v = 1/4 ∨ v = 1/2 ∨ v = 1) ∧
    (∀ e, rr = .error e →
      (final_record (process_analysis (create_analysis st c now).1.analyses
          (create_analysis st c now).2.id rr ar later)
        (create_analysis st c now).2.id).map Analysis.progress =
          some (1/4)) ∧
    (∀ rd e, rr = .ok rd → ar = .error e →
      (final_record (process_analysis (create_analysis st c now).1.analyses
          (create_analysis st c now).2.id rr ar later)
        (create_analysis st c now).2.id).map Analysis.progress =
          some (1/2)) := by
  refine ⟨?_, ?_, ?_, ?_⟩
  · cases rr with
    | error e =>
        simp only [process_analysis, create_analysis, alookup_ainsert_self,
          process_analysis_rest, fail_update, run_trace, writesOf,
          List.map_cons, List.map_nil, List.chain'_cons, List.chain'_singleton]
        norm_num
    | ok rd =>
        cases ar with
        | error e =>
            simp only [process_analysis, create_analysis, alookup_ainsert_self,
              process_analysis_rest, fail_update, run_trace, writesOf,
              List.map_cons, List.map_nil, List.chain'_cons,
              List.chain'_singleton]
            norm_num
        | ok res =>
            simp only [process_analysis, create_analysis, alookup_ainsert_self,
              process_analysis_rest, fail_update, run_trace, writesOf,
              List.map_cons, List.map_nil, List.chain'_cons,
              List.chain'_singleton]
            norm_num
  · cases rr with
    | error e =>
        simp only [process_analysis, create_analysis, alookup_ainsert_self,
          process_analysis_rest, fail_update, run_trace, writesOf,
          List.map_cons, List.map_nil, List.mem_cons, List.not_mem_nil]
        rintro v (rfl | rfl | rfl | h) <;> first | exact h.elim | norm_num
    | ok rd =>
        cases ar with
        | error e =>
            simp only [process_analysis, create_analysis, alookup_ainsert_self,
              process_analysis_rest, fail_update, run_trace, writesOf,
              List.map_cons, List.map_nil, List.mem_cons, List.not_mem_nil]
            rintro v (rfl | rfl | rfl | rfl | h) <;>
              first | exact h.elim | norm_num
        | ok res =>
            simp only [process_analysis, create_analysis, alookup_ainsert_self,
              process_analysis_rest, fail_update, run_trace, writesOf,
              List.map_cons, List.map_nil, List.mem_cons, List.not_mem_nil]
            rintro v (rfl | rfl | rfl | rfl | h) <;>
              first | exact h.elim | norm_num
  · rintro e rfl
    simp [process_analysis, create_analysis, alookup_ainsert_self,
      process_analysis_rest, fail_update, final_record]
  · rintro rd e rfl rfl
    simp [process_analysis, create_analysis, alookup_ainsert_self,
      process_analysis_rest, fail_update, final_record]

/-- C5, witness at a concrete input: a run whose analysis phase fails. -/
theorem C5_progress_monotone_witness :
    List.Chain' (· ≤ ·)
      ((create_analysis ⟨[], 1⟩
          ⟨"t", "d", "EV battery market", none⟩ 5).2.progress ::
        (writesOf (run_trace (process_analysis
          (create_analysis ⟨[], 1⟩
            ⟨"t", "d", "EV battery market", none⟩ 5).1.analyses
          (create_analysis ⟨[], 1⟩
            ⟨"t", "d", "EV battery market", none⟩ 5).2.id
          (.ok "rd") (.error "boom") 9))).map Analysis.progress) ∧
    (∀ v ∈ (create_analysis ⟨[], 1⟩
          ⟨"t", "d", "EV battery market", none⟩ 5).2.progress ::
        (writesOf (run_trace (process_analysis
          (create_analysis ⟨[], 1⟩
            ⟨"t", "d", "EV battery market", none⟩ 5).1.analyses
          (create_analysis ⟨[], 1⟩
            ⟨"t", "d", "EV battery market", none⟩ 5).2.id
          (.ok "rd") (.error "boom") 9))).map Analysis.progress,
      v = 0 ∨ v = 1/4 ∨ v = 1/2 ∨ v = 1) ∧
    (∀ e, (Except.ok "rd" : Except String String) = .error e →
      (final_record (process_analysis (create_analysis ⟨[], 1⟩
            ⟨"t", "d", "EV battery market", none⟩ 5).1.analyses
          (create_analysis ⟨[], 1⟩
            ⟨"t", "d", "EV battery market", none⟩ 5).2.id
          (.ok "rd") (.error "boom") 9)
        (create_analysis ⟨[], 1⟩
            ⟨"t", "d", "EV battery market", none⟩ 5).2.id).map
          Analysis.progress = some (1/4)) ∧
    (∀ rd e, (Except.ok "rd" : Except String String) = .ok rd →
      (Except.error "boom" : Except String Val) = .error e →
      (final_record (process_analysis (create_analysis ⟨[], 1⟩
            ⟨"t", "d", "EV battery market", none⟩ 5).1.analyses
          (create_analysis ⟨[], 1⟩
            ⟨"t", "d", "EV battery market", none⟩ 5).2.id
          (.ok "rd") (.error "boom") 9)
        (create_analysis ⟨[], 1⟩
            ⟨"t", "d", "EV battery market", none⟩ 5).2.id).map
          Analysis.progress = some (1/2)) :=
  C5_progress_monotone ⟨[], 1⟩ ⟨"t", "d", "EV battery market", none⟩
    (.ok "rd") (.error "boom") 5 9

/-- C7, counterexample: research succeeds with output rd, the analysis phase
fails — the final record keeps the pre-existing key foo and gains the error
key, but holds no research_data key at all: result sub-keys are written only
by the completion write, so the successful research phase left nothing in
parameters to preserve. -/
theorem C7_counterexample :
    (final_record (process_analysis [(1, sample_pending)] 1 (.ok "rd")
        (.error "boom") 9) 1).map
      (fun a => (a.status,
        alookup (paramsOrEmpty a.parameters) "research_data",
        alookup (paramsOrEmpty a.parameters) "foo")) =
      some ("failed", none, some (.str "bar")) := by decide

/-- C7, amended: during a run the parameters bag never loses a key — every
key other than the reserved research_data, analysis_results and error keys
keeps its original value in the final record; the completion write adds
research_data and analysis_results together, and a failure adds error. But
result sub-keys are written only on completion, so after an analysis-phase
failure the research_data entry of the final record is whatever the input bag
held (in particular absent), not the research output. -/
theorem C7_params_append_only (analyses : JobMap) (analysis_id : Nat)
    (a : Analysis) (ha : alookup analyses analysis_id = some a)
    (rr : Except String String) (ar : Except String Val) (now : Nat)
    (k : String) (hk1 : k ≠ "research_data") (hk2 : k ≠ "analysis_results")
    (hk3 : k ≠ "error") :
    ((final_record (process_analysis analyses analysis_id rr ar now)
        analysis_id).map
      (fun a' => alookup (paramsOrEmpty a'.parameters) k) =
      some (alookup (paramsOrEmpty a.parameters) k)) ∧
    (∀ rd res, rr = .ok rd → ar = .ok res →
      (final_record (process_analysis analyses analysis_id rr ar now)
          analysis_id).map
        (fun a' => (alookup (paramsOrEmpty a'.parameters) "research_data",
          alookup (paramsOrEmpty a'.parameters) "analysis_results")) =
        some (some (.str rd), some res)) ∧
    (∀ rd e, rr = .ok rd → ar = .error e →
      (final_record (process_analysis analyses analysis_id rr ar now)
          analysis_id).map
        (fun a' => alookup (paramsOrEmpty a'.parameters) "research_data") =
        some (alookup (paramsOrEmpty a.parameters) "research_data")) := by
  refine ⟨?_, ?_, ?_⟩
  · cases rr with
    | error e =>
        simp [process_analysis, ha, process_analysis_rest, fail_update,
          final_record, paramsOrEmpty, alookup_ainsert_self, alookup_ainsert,
          hk3, Ne.symm hk3]
    | ok rd =>
        cases ar with
        | error e =>
            simp [process_analysis, ha, process_analysis_rest, fail_update,
              final_record, paramsOrEmpty, alookup_ainsert_self,
              alookup_ainsert, Ne.symm hk3]
        | ok res =>
            simp [process_analysis, ha, process_analysis_rest, fail_update,
              final_record, paramsOrEmpty, alookup_ainsert_self,
              alookup_ainsert, Ne.symm hk1, Ne.symm hk2]
  · rintro rd res rfl rfl
    simp [process_analysis, ha, process_analysis_rest, fail_update,
      final_record, paramsOrEmpty, alookup_ainsert_self, alookup_ainsert]
  · rintro rd e rfl rfl
    simp [process_analysis, ha, process_analysis_rest, fail_update,
      final_record, paramsOrEmpty, alookup_ainsert_self, alookup_ainsert]

/-- C7, witness for the amended theorem at a concrete input. -/
theorem C7_params_append_only_witness :
    ((final_record (process_analysis [(1, sample_pending)] 1 (.ok "rd")
        (.error "boom") 9) 1).map
      (fun a' => alookup (paramsOrEmpty a'.parameters) "foo") =
      some (alookup (paramsOrEmpty sample_pending.parameters) "foo")) ∧
    (∀ rd res, (Except.ok "rd" : Except String String) = .ok rd →
      (Except.error "boom" : Except String Val) = .ok res →
      (final_record (process_analysis [(1, sample_pending)] 1 (.ok "rd")
          (.error "boom") 9) 1).map
        (fun a' => (alookup (paramsOrEmpty a'.parameters) "research_data",
          alookup (paramsOrEmpty a'.parameters) "analysis_results")) =
        some (some (.str rd), some res)) ∧
    (∀ rd e, (Except.ok "rd" : Except String String) = .ok rd →
      (Except.error "boom" : Except String Val) = .error e →
      (final_record (process_analysis [(1, sample_pending)] 1 (.ok "rd")
          (.error "boom") 9) 1).map
        (fun a' => alookup (paramsOrEmpty a'.parameters) "research_data") =
        some (alookup (paramsOrEmpty sample_pending.parameters)
          "research_data")) :=
  C7_params_append_only [(1, sample_pending)] 1 sample_pending (by decide)
    (.ok "rd") (.error "boom") 9 "foo" (by decide) (by decide) (by decide)

/-- C8, counterexample: the record is created at tick 5, the run then fails
its research phase at tick 9 — that run performed two mutations (the
researching transition and the failed transition) yet the final updated_at
still reads 5, the creation tick: neither transition refreshed it. -/
theorem C8_counterexample :
    (final_record (process_analysis [(1, sample_pending)] 1 (.error "boom")
        (.ok (.str "res")) 9) 1).map Analysis.updated_at = some 5 ∧
    sample_pending.updated_at = 5 ∧ (5 : Nat) ≠ 9 := by decide

/-- C8, amended: during a run, only the completion write refreshes
updated_at (to the clock value of that write); the researching, analyzing
and failed writes all carry the updated_at the record had when the run
started. -/
theorem C8_updated_at (analyses : JobMap) (analysis_id : Nat) (a : Analysis)
    (ha : alookup analyses analysis_id = some a)
    (rr : Except String String) (ar : Except String Val) (now : Nat) :
    (∀ w ∈ writesOf (run_trace (process_analysis analyses analysis_id rr ar
        now)), w.status ≠ "completed" → w.updated_at = a.updated_at) ∧
    (∀ w ∈ writesOf (run_trace (process_analysis analyses analysis_id rr ar
        now)), w.status = "completed" → w.updated_at = now) := by
  constructor
  · cases rr with
    | error e =>
        simp only [process_analysis, ha, process_analysis_rest, fail_update,
          run_trace, writesOf, List.mem_cons, List.not_mem_nil]
        rintro w (rfl | rfl | h)
        · intro hw; rfl
        · intro hw; rfl
        · exact h.elim
    | ok rd =>
        cases ar with
        | error e =>
            simp only [process_analysis, ha, process_analysis_rest,
              fail_update, run_trace, writesOf, List.mem_cons,
              List.not_mem_nil]
            rintro w (rfl | rfl | rfl | h)
            · intro hw; rfl
            · intro hw; rfl
            · intro hw; rfl
            · exact h.elim
        | ok res =>
            simp only [process_analysis, ha, process_analysis_rest,
              fail_update, run_trace, writesOf, List.mem_cons,
              List.not_mem_nil]
            rintro w (rfl | rfl | rfl | h)
            · intro hw; rfl
            · intro hw; rfl
            · intro hw; simp at hw
            · exact h.elim
  · cases rr with
    | error e =>
        simp only [process_analysis, ha, process_analysis_rest, fail_update,
          run_trace, writesOf, List.mem_cons, List.not_mem_nil]
        rintro w (rfl | rfl | h)
        · intro hw; simp at hw
        · intro hw; simp at hw
        · exact h.elim
    | ok rd =>
        cases ar with
        | error e =>
            simp only [process_analysis, ha, process_analysis_rest,
              fail_update, run_trace, writesOf, List.mem_cons,
              List.not_mem_nil]
            rintro w (rfl | rfl | rfl | h)
            · intro hw; simp at hw
            · intro hw; simp at hw
            · intro hw; simp at hw
            · exact h.elim
        | ok res =>
            simp only [process_analysis, ha, process_analysis_rest,
              fail_update, run_trace, writesOf, List.mem_cons,
              List.not_mem_nil]
            rintro w (rfl | rfl | rfl | h)
            · intro hw; simp at hw
            · intro hw; simp at hw
            · intro hw; rfl
            · exact h.elim

/-- C8, witness for the amended theorem at a concrete input. -/
theorem C8_updated_at_witness :
    (∀ w ∈ writesOf (run_trace (process_analysis [(1, sample_pending)] 1
        (.ok "rd") (.ok (.str "res")) 9)),
      w.status ≠ "completed" → w.updated_at = sample_pending.updated_at) ∧
    (∀ w ∈ writesOf (run_trace (process_analysis [(1, sample_pending)] 1
        (.ok "rd") (.ok (.str "res")) 9)),
      w.status = "completed" → w.updated_at = 9) :=
  C8_updated_at [(1, sample_pending)] 1 sample_pending (by decide)
    (.ok "rd") (.ok (.str "res")) 9

/-- C3, counterexample: with job 1 mid-run (status researching, so its first
run is in flight and not terminal), invoking the run task a second time for
id 1 is not rejected with any error — it returns normally — and it mutates
the stored Job Record of the first run rather than leaving it unchanged. -/
theorem C3_counterexample :
    run_ok (process_analysis [(1, sample_inflight)] 1 (.ok "rd")
        (.ok (.str "res")) 9) = true ∧
    final_record (process_analysis [(1, sample_inflight)] 1 (.ok "rd")
        (.ok (.str "res")) 9) 1 ≠ some sample_inflight := by
  constructor
  · rfl
  · have hst : (final_record (process_analysis [(1, sample_inflight)] 1
        (.ok "rd") (.ok (.str "res")) 9) 1).map Analysis.status =
        some "completed" := rfl
    intro h
    rw [h] at hst
    simp [sample_inflight, sample_pending] at hst

/-- C3, amended: the orchestrator keeps no in-flight id set and raises no
ConflictError. The create endpoint always hands a run a fresh id — the id
counter increases by one per creation, so consecutive creations target
distinct ids — and the run task itself performs no in-flight check: invoked
for any id whose record is stored, whatever its status, it proceeds and
immediately writes the researching transition over that record. -/
theorem C3_no_conflict_check (st : ApiState) (c c' : AnalysisCreate)
    (now now' : Nat) (analyses : JobMap) (analysis_id : Nat) (a : Analysis)
    (ha : alookup analyses analysis_id = some a)
    (rr : Except String String) (ar : Except String Val) (later : Nat) :
    (create_analysis (create_analysis st c now).1 c' now').2.id =
      (create_analysis st c now).2.id + 1 ∧
    run_ok (process_analysis analyses analysis_id rr ar later) = true ∧
    (writesOf (run_trace (process_analysis analyses analysis_id rr ar
        later))).head?.map Analysis.status = some "researching" := by
  refine ⟨by simp [create_analysis], ?_, ?_⟩
  · cases rr with
    | error e => simp [process_analysis, ha, run_ok]
    | ok rd =>
        cases ar with
        | error e => simp [process_analysis, ha, run_ok]
        | ok res => simp [process_analysis, ha, run_ok]
  · cases rr with
    | error e =>
        simp [process_analysis, ha, process_analysis_rest, fail_update,
          run_trace, writesOf]
    | ok rd =>
        cases ar with
        | error e =>
            simp [process_analysis, ha, process_analysis_rest, fail_update,
              run_trace, writesOf]
        | ok res =>
            simp [process_analysis, ha, process_analysis_rest, fail_update,
              run_trace, writesOf]

/-- C3, witness for the amended theorem at a concrete input. -/
theorem C3_no_conflict_check_witness :
    (create_analysis (create_analysis ⟨[], 1⟩
        ⟨"t", "d", "EV battery market", none⟩ 5).1
      ⟨"u", "e", "solar", none⟩ 6).2.id =
      (create_analysis ⟨[], 1⟩ ⟨"t", "d", "EV battery market", none⟩ 5).2.id
        + 1 ∧
    run_ok (process_analysis [(1, sample_inflight)] 1 (.ok "rd")
        (.ok (.str "res")) 9) = true ∧
    (writesOf (run_trace (process_analysis [(1, sample_inflight)] 1
        (.ok "rd") (.ok (.str "res")) 9))).head?.map Analysis.status =
      some "researching" :=
  C3_no_conflict_check ⟨[], 1⟩ ⟨"t", "d", "EV battery market", none⟩
    ⟨"u", "e", "solar", none⟩ 5 6 [(1, sample_inflight)] 1 sample_inflight
    rfl (.ok "rd") (.ok (.str "res")) 9

theorem alookup_mem_values {α β : Type} [DecidableEq α]
    (l : List (α × β)) (k : α) (v : β) (h : alookup l k = some v) :
    v ∈ l.map Prod.snd := by
  induction l with
  | nil => simp [alookup] at h
  | cons hd tl ih =>
      obtain ⟨k0, v0⟩ := hd
      simp only [alookup] at h
      by_cases h0 : k0 = k
      · rw [if_pos h0] at h
        simp only [Option.some_inj] at h
        simp [h]
      · rw [if_neg h0] at h
        simp [ih h]

theorem mem_list_analyses_of_alookup (st : ApiState) (k : Nat) (v : Analysis)
    (h : alookup st.analyses k = some v) :
    v ∈ list_analyses st 0 st.analyses.length := by
  have hm := alookup_mem_values st.analyses k v h
  simp only [list_analyses, List.drop_zero]
  have hlen : st.analyses.length = (st.analyses.map Prod.snd).length :=
    (List.length_map _ _).symm
  rw [hlen, List.take_length]
  exact hm

/-- The record the remainder of a run leaves under its id, determined only by
the local record and the provider outcomes (derived characterization used by
the C9 theorem). -/
def run_final (a1 : Analysis) (rr : Except String String)
    (ar : Except String Val) (now : Nat) : Analysis :=
  match rr with
  | .error e => { a1 with
      status := "failed",
      parameters := some (ainsert (paramsOrEmpty a1.parameters) "error"
        (.str e)) }
  | .ok rd =>
    match ar with
    | .error e => { a1 with
        status := "failed", progress := 1/2,
        parameters := some (ainsert (paramsOrEmpty a1.parameters) "error"
          (.str e)) }
    | .ok res => { a1 with
        parameters := some (ainsert (ainsert (paramsOrEmpty a1.parameters)
          "research_data" (.str rd)) "analysis_results" res),
        status := "completed", progress := 1, updated_at := now }

theorem process_analysis_rest_lookup (analyses : JobMap) (analysis_id : Nat)
    (a1 : Analysis) (rr : Except String String) (ar : Except String Val)
    (now : Nat) :
    alookup (process_analysis_rest analyses analysis_id a1 rr ar now).1
      analysis_id = some (run_final a1 rr ar now) := by
  cases rr with
  | error e =>
      simp [process_analysis_rest, fail_update, run_final,
        alookup_ainsert_self]
  | ok rd =>
      cases ar with
      | error e =>
          simp [process_analysis_rest, fail_update, run_final,
            alookup_ainsert_self]
      | ok res =>
          simp [process_analysis_rest, fail_update, run_final,
            alookup_ainsert_self]

/-- C9: deleting the job record from the store between two transitions of a
run neither stops the run nor changes it: the remainder of the run computes
from the local record alone, its next write re-inserts the id, and the final
record stored under the id is the same with or without the deletion; the
re-inserted record also shows up in a full list result. -/
theorem C9_delete_midrun (analyses : JobMap) (analysis_id : Nat)
    (a1 : Analysis) (rr : Except String String) (ar : Except String Val)
    (now : Nat) :
    alookup (process_analysis_rest (aerase analyses analysis_id) analysis_id
        a1 rr ar now).1 analysis_id =
      alookup (process_analysis_rest analyses analysis_id a1 rr ar now).1
        analysis_id ∧
    (alookup (process_analysis_rest (aerase analyses analysis_id) analysis_id
        a1 rr ar now).1 analysis_id).isSome = true ∧
    (∃ r, alookup (process_analysis_rest (aerase analyses analysis_id)
        analysis_id a1 rr ar now).1 analysis_id = some r ∧
      r ∈ list_analyses
        ⟨(process_analysis_rest (aerase analyses analysis_id) analysis_id
            a1 rr ar now).1, 0⟩ 0
        (process_analysis_rest (aerase analyses analysis_id) analysis_id
            a1 rr ar now).1.length) := by
  refine ⟨?_, ?_, ?_⟩
  · rw [process_analysis_rest_lookup, process_analysis_rest_lookup]
  · rw [process_analysis_rest_lookup]
    rfl
  · refine ⟨run_final a1 rr ar now, process_analysis_rest_lookup _ _ _ _ _ _,
      ?_⟩
    exact mem_list_analyses_of_alookup
      ⟨(process_analysis_rest (aerase analyses analysis_id) analysis_id
          a1 rr ar now).1, 0⟩ analysis_id _
      (process_analysis_rest_lookup _ _ _ _ _ _)

/-- Iterated list.remove: take away one occurrence of each listed socket. -/
def removeAll (l : List Conn) (rem : List Conn) : List Conn :=
  rem.foldl listRemove l

theorem listRemove_of_not_mem {l : List Conn} {x : Conn} (h : x ∉ l) :
    listRemove l x = l := by
  induction l with
  | nil => rfl
  | cons c t ih =>
      simp only [List.mem_cons, not_or] at h
      simp only [listRemove]
      rw [if_neg (fun he => h.1 he.symm), ih h.2]

theorem removeAll_nil_left (rem : List Conn) : removeAll [] rem = [] := by
  induction rem with
  | nil => rfl
  | cons r rs ih =>
      simp only [removeAll, List.foldl_cons, listRemove] at ih ⊢
      exact ih

theorem cons_removeAll (rem : List Conn) (c : Conn) (t : List Conn)
    (hne : ∀ x ∈ rem, x ≠ c) :
    removeAll (c :: t) rem = c :: removeAll t rem := by
  induction rem generalizing t with
  | nil => rfl
  | cons r rs ih =>
      have hrc : ¬ c = r := fun he => hne r (by simp) he.symm
      simp only [removeAll, List.foldl_cons, listRemove, if_neg hrc]
      exact ih (listRemove t r) (fun x hx => hne x (by simp [hx]))

theorem removeAll_filter (p : Conn → Bool) (l : List Conn) :
    removeAll l (l.filter p) = l.filter (fun c => !(p c)) := by
  induction l with
  | nil => rfl
  | cons c t ih =>
      by_cases hp : p c
      · simp only [List.filter_cons, hp, if_pos, removeAll, List.foldl_cons,
          listRemove, if_pos rfl]
        simpa [hp] using ih
      · have hpc : p c = false := by simpa using hp
        have hfil : (c :: t).filter p = t.filter p := by
          simp [List.filter_cons, hpc]
        rw [hfil]
        have hmem : ∀ x ∈ t.filter p, x ≠ c := by
          intro x hx he
          rw [List.mem_filter] at hx
          rw [he] at hx
          rw [hpc] at hx
          exact Bool.false_ne_true hx.2
        rw [cons_removeAll _ _ _ hmem]
        simp [List.filter_cons, hpc, ih]

theorem alookup_none_of_not_mem_keys {α β : Type} [DecidableEq α]
    {l : List (α × β)} {k : α} (h : k ∉ l.map Prod.fst) :
    alookup l k = none := by
  induction l with
  | nil => rfl
  | cons hd tl ih =>
      obtain ⟨k0, v0⟩ := hd
      simp only [List.map_cons, List.mem_cons, not_or] at h
      simp only [alookup]
      rw [if_neg (fun he => h.1 he.symm)]
      exact ih h.2

theorem alookup_aerase_self {α β : Type} [DecidableEq α]
    (l : List (α × β)) (k : α) (hnd : (l.map Prod.fst).Nodup) :
    alookup (aerase l k) k = none := by
  induction l with
  | nil => rfl
  | cons hd tl ih =>
      obtain ⟨k0, v0⟩ := hd
      simp only [List.map_cons, List.nodup_cons] at hnd
      by_cases h0 : k0 = k
      · simp only [aerase, if_pos h0]
        subst h0
        exact alookup_none_of_not_mem_keys hnd.1
      · simp only [aerase, if_neg h0, alookup]
        exact ih hnd.2

theorem ainsert_keys_of_mem {α β : Type} [DecidableEq α]
    {l : List (α × β)} {k : α} (v : β) (hk : k ∈ l.map Prod.fst) :
    (ainsert l k v).map Prod.fst = l.map Prod.fst := by
  induction l with
  | nil => simp at hk
  | cons hd tl ih =>
      obtain ⟨k0, v0⟩ := hd
      by_cases h0 : k0 = k
      · simp [ainsert, h0]
      · simp only [List.map_cons, List.mem_cons] at hk
        rcases hk with hk | hk
        · exact absurd hk.symm h0
        · simp only [ainsert, if_neg h0, List.map_cons, ih hk]

theorem ainsert_keys_of_not_mem {α β : Type} [DecidableEq α]
    {l : List (α × β)} {k : α} (v : β) (hk : k ∉ l.map Prod.fst) :
    (ainsert l k v).map Prod.fst = l.map Prod.fst ++ [k] := by
  induction l with
  | nil => rfl
  | cons hd tl ih =>
      obtain ⟨k0, v0⟩ := hd
      simp only [List.map_cons, List.mem_cons, not_or] at hk
      have h0 : ¬ k0 = k := fun he => hk.1 he.symm
      simp only [ainsert, if_neg h0, List.map_cons, ih hk.2,
        List.cons_append]

theorem ainsert_keys_nodup {α β : Type} [DecidableEq α]
    (l : List (α × β)) (k : α) (v : β) (hnd : (l.map Prod.fst).Nodup) :
    ((ainsert l k v).map Prod.fst).Nodup := by
  by_cases hk : k ∈ l.map Prod.fst
  · rw [ainsert_keys_of_mem v hk]
    exact hnd
  · rw [ainsert_keys_of_not_mem v hk]
    rw [List.nodup_append]
    refine ⟨hnd, List.nodup_singleton k, ?_⟩
    intro a ha hb
    rw [List.mem_singleton] at hb
    subst hb
    exact hk ha

theorem disconnect_of_lookup_none {m : ManagerState} {aid : String}
    (h : alookup m aid = none) (ws : Conn) : disconnect m aid ws = m := by
  simp [disconnect, h]

theorem foldl_disconnect_of_lookup_none {aid : String} (rem : List Conn) :
    ∀ {m : ManagerState}, alookup m aid = none →
      rem.foldl (fun acc c => disconnect acc aid c) m = m := by
  induction rem with
  | nil => intro m _; rfl
  | cons r rs ih =>
      intro m h
      simp only [List.foldl_cons, disconnect_of_lookup_none h]
      exact ih h

theorem foldl_disconnect_lookup (aid : String) (rem : List Conn) :
    ∀ (m : ManagerState) (conns : List Conn),
      (m.map Prod.fst).Nodup →
      alookup m aid = some conns → conns ≠ [] →
      alookup (rem.foldl (fun acc c => disconnect acc aid c) m) aid =
        (if removeAll conns rem = [] then none
         else some (removeAll conns rem)) := by
  induction rem with
  | nil =>
      intro m conns hnd hm hne
      simp [removeAll, hm, hne]
  | cons r rs ih =>
      intro m conns hnd hm hne
      simp only [List.foldl_cons]
      have hstep : removeAll conns (r :: rs) =
          removeAll (listRemove conns r) rs := rfl
      by_cases hr : r ∈ conns
      · by_cases he : listRemove conns r = []
        · have hdisc : disconnect m aid r = aerase m aid := by
            simp [disconnect, hm, hr, he]
          rw [hdisc]
          have hnone : alookup (aerase m aid) aid = none :=
            alookup_aerase_self m aid hnd
          rw [foldl_disconnect_of_lookup_none rs hnone, hnone, hstep, he,
            removeAll_nil_left]
          simp
        · have hdisc : disconnect m aid r =
              ainsert m aid (listRemove conns r) := by
            simp [disconnect, hm, hr, List.isEmpty_iff, he]
          rw [hdisc, hstep]
          exact ih (ainsert m aid (listRemove conns r)) (listRemove conns r)
            (ainsert_keys_nodup m aid _ hnd) (alookup_ainsert_self m aid _)
            he
      · have hdisc : disconnect m aid r = m := by
          simp [disconnect, hm, hr]
        rw [hdisc, hstep, listRemove_of_not_mem hr]
        exact ih m conns hnd hm hne

/-- A live sink, a dead sink, and a second live sink, used as concrete
subscribers of one job id. -/
def sink_live : Conn := { cid := 1, alive := true }

/-- A sink whose send raises (closed on the remote side). -/
def sink_dead : Conn := { cid := 2, alive := false }

/-- A second live sink. -/
def sink_live2 : Conn := { cid := 3, alive := true }

/-- C6, counterexample: under the manager main.py actually imports
(backend/app/core/websocket.py), a broadcast to job 42 with one live and one
dead sink delivers to the live one and closes the dead one, but the returned
subscriber state is unchanged: the dead sink (cid 2) is still registered for
job 42 after the broadcast, so it is attempted again by every future
broadcast instead of being removed. -/
theorem C6_counterexample :
    (core_broadcast_to_analysis [("42", [sink_live, sink_dead])] "42"
        (.str "ev")).1 = [("42", [sink_live, sink_dead])] ∧
    (core_broadcast_to_analysis [("42", [sink_live, sink_dead])] "42"
        (.str "ev")).2.1 = [(1, .str "ev")] ∧
    (core_broadcast_to_analysis [("42", [sink_live, sink_dead])] "42"
        (.str "ev")).2.2 = [2] := by decide

/-- C6, amended: both managers attempt delivery to every sink of the id and
neither lets a failing sink abort the broadcast; the api/v1 manager
(backend/app/api/v1/websockets.py) moreover removes every failed sink as a
side effect — afterwards the subscriber set for the id is exactly the live
sinks, with the entry deleted when none survive — while the core manager
(backend/app/core/websocket.py, the instance main.py uses) closes failed
sinks but leaves them registered. -/
theorem C6_broadcast (m : ManagerState) (aid : String) (conns : List Conn)
    (msg : Val) (hm : alookup m aid = some conns)
    (hnd : (m.map Prod.fst).Nodup) (hne : conns ≠ []) :
    (broadcast_to_analysis m aid msg).2 =
      (conns.filter (fun c => c.alive)).map (fun c => (c.cid, msg)) ∧
    alookup (broadcast_to_analysis m aid msg).1 aid =
      (if conns.filter (fun c => c.alive) = [] then none
       else some (conns.filter (fun c => c.alive))) ∧
    (core_broadcast_to_analysis m aid msg).1 = m ∧
    (core_broadcast_to_analysis m aid msg).2.1 =
      (conns.filter (fun c => c.alive)).map (fun c => (c.cid, msg)) := by
  refine ⟨?_, ?_, ?_, ?_⟩
  · simp [broadcast_to_analysis, hm]
  · have hfold := foldl_disconnect_lookup aid
      (conns.filter (fun c => !c.alive)) m conns hnd hm hne
    have hra : removeAll conns (conns.filter (fun c => !c.alive)) =
        conns.filter (fun c => c.alive) := by
      have h0 := removeAll_filter (fun c => !c.alive) conns
      simpa using h0
    simp only [broadcast_to_analysis, hm]
    rw [hfold, hra]
  · simp [core_broadcast_to_analysis, hm]
  · simp [core_broadcast_to_analysis, hm]

/-- C6, witness for the amended theorem: three subscribers on job 42, one of
them dead. -/
theorem C6_broadcast_witness :
    (broadcast_to_analysis [("42", [sink_live, sink_dead, sink_live2])] "42"
        (.str "ev")).2 =
      (([sink_live, sink_dead, sink_live2].filter (fun c => c.alive)).map
        (fun c => (c.cid, Val.str "ev"))) ∧
    alookup (broadcast_to_analysis
        [("42", [sink_live, sink_dead, sink_live2])] "42" (.str "ev")).1
        "42" =
      (if [sink_live, sink_dead, sink_live2].filter (fun c => c.alive) = []
       then none
       else some ([sink_live, sink_dead, sink_live2].filter
         (fun c => c.alive))) ∧
    (core_broadcast_to_analysis [("42", [sink_live, sink_dead, sink_live2])]
        "42" (.str "ev")).1 =
      [("42", [sink_live, sink_dead, sink_live2])] ∧
    (core_broadcast_to_analysis [("42", [sink_live, sink_dead, sink_live2])]
        "42" (.str "ev")).2.1 =
      (([sink_live, sink_dead, sink_live2].filter (fun c => c.alive)).map
        (fun c => (c.cid, Val.str "ev"))) :=
  C6_broadcast [("42", [sink_live, sink_dead, sink_live2])] "42"
    [sink_live, sink_dead, sink_live2] (.str "ev") (by decide) (by decide)
    (by decide)

/-- C10: any JSON message received from a connected subscriber is passed
verbatim to broadcast_to_analysis for that job id, which delivers it to
every registered sink of the id — the sender among them — while the
orchestrator run itself emits no event whatsoever: every event on the
channel that did not come from the connected-confirmation is client-made,
so subscribers observe events the pipeline never generated. -/
theorem C10_client_rebroadcast (m : ManagerState) (aid : String)
    (conns : List Conn) (msg : Val) (sender : Conn)
    (hm : alookup m aid = some conns)
    (halive : ∀ c ∈ conns, c.alive = true) (hs : sender ∈ conns)
    (analyses : JobMap) (analysis_id : Nat)
    (rr : Except String String) (ar : Except String Val) (now : Nat) :
    (websocket_endpoint_receive m aid msg).2 =
      conns.map (fun c => (c.cid, msg)) ∧
    (sender.cid, msg) ∈ (websocket_endpoint_receive m aid msg).2 ∧
    broadcastsOf (run_trace (process_analysis analyses analysis_id rr ar
        now)) = [] := by
  have hfilter : conns.filter (fun c => c.alive) = conns :=
    List.filter_eq_self.mpr (fun c hc => by simpa using halive c hc)
  have hdeliv : (websocket_endpoint_receive m aid msg).2 =
      conns.map (fun c => (c.cid, msg)) := by
    simp [websocket_endpoint_receive, broadcast_to_analysis, hm, hfilter]
  refine ⟨hdeliv, ?_, ?_⟩
  · rw [hdeliv]
    exact List.mem_map_of_mem _ hs
  · cases h : alookup analyses analysis_id with
    | none => simp [process_analysis, h, run_trace, broadcastsOf]
    | some a =>
        cases rr with
        | error e =>
            simp [process_analysis, h, process_analysis_rest, fail_update,
              run_trace, broadcastsOf]
        | ok rd =>
            cases ar with
            | error e =>
                simp [process_analysis, h, process_analysis_rest,
                  fail_update, run_trace, broadcastsOf]
            | ok res =>
                simp [process_analysis, h, process_analysis_rest,
                  fail_update, run_trace, broadcastsOf]

/-- C10, witness: two live subscribers on job 42; the first sends a message
no pipeline transition produces, and both (the sender included) receive it. -/
theorem C10_client_rebroadcast_witness :
    (websocket_endpoint_receive [("42", [sink_live, sink_live2])] "42"
        (.str "not a pipeline event")).2 =
      ([sink_live, sink_live2].map
        (fun c => (c.cid, Val.str "not a pipeline event"))) ∧
    (sink_live.cid, Val.str "not a pipeline event") ∈
      (websocket_endpoint_receive [("42", [sink_live, sink_live2])] "42"
        (.str "not a pipeline event")).2 ∧
    broadcastsOf (run_trace (process_analysis [(1, sample_pending)] 1
        (.ok "rd") (.ok (.str "res")) 9)) = [] :=
  C10_client_rebroadcast [("42", [sink_live, sink_live2])] "42"
    [sink_live, sink_live2] (.str "not a pipeline event") sink_live
    (by decide) (by decide) (by decide) [(1, sample_pending)] 1
    (.ok "rd") (.ok (.str "res")) 9
